import Mathlib

/-!
# Verification of the YOLO detection module (lightning-bolts)

A shallow embedding of the YOLO model code from
`pl_bolts/models/detection/yolo/yolo_module.py` and
`pl_bolts/models/detection/yolo/torch_networks.py`, together with theorems
settling the specification's claims about it.

Tensors of floating point numbers are modelled as lists of rationals (`ℚ`);
tensor arithmetic on them is exact. Shape information that the code inspects
at runtime (`ndim`, `shape`, `len`) is modelled explicitly. Python exceptions
are modelled with `Except String`.
-/

namespace YoloSpec

/-- A bounding box in `(x1, y1, x2, y2)` corner format. -/
structure Box where
  x1 : ℚ
  y1 : ℚ
  x2 : ℚ
  y2 : ℚ
deriving DecidableEq, Repr

instance : Inhabited Box := ⟨⟨0, 0, 0, 0⟩⟩

/-! ## `_aligned_iou` (modelled from the spec)

The function `_aligned_iou` lives in `pl_bolts/models/detection/yolo/yolo_layers.py`,
which is not part of the sources; only its test (`tests/models/test_detection.py`,
`test_aligned_iou`) is. -/

/-- Modelled from the spec: `aligned_iou(dims1, dims2)` from §4.1 — the source
function `_aligned_iou` (in `yolo_layers.py`) is missing from the sources. Boxes
are considered centered at the origin, so only the widths and heights matter:
the intersection of two centered boxes is `min w1 w2 * min h1 h2`, and the
result is the pairwise intersection-over-union matrix of shape
`[len(dims1), len(dims2)]`. -/
def aligned_iou (dims1 dims2 : List (ℚ × ℚ)) : List (List ℚ) :=
  dims1.map fun d1 =>
    dims2.map fun d2 =>
      let inter := min d1.1 d2.1 * min d1.2 d2.2
      let union := d1.1 * d1.2 + d2.1 * d2.2 - inter
      inter / union

/-! ## Prior shape validation at network construction

Each of `YOLOV4TinyNetwork.__init__`, `YOLOV4Network.__init__`,
`YOLOV5Network.__init__` and `YOLOXNetwork.__init__` (`torch_networks.py`)
processes its `prior_shapes` argument the same way:

    if prior_shapes is None:
        prior_shapes = [...defaults...]
        anchors_per_cell = 3        # 1 for YOLOX
    else:
        anchors_per_cell, modulo = divmod(len(prior_shapes), 3)
        if modulo != 0:
            raise ValueError("The number of provided prior shapes needs to be divisible by 3.")

The functions below return the prior shape list together with
`anchors_per_cell`, or the construction-time error. -/

/-- The COCO prior shapes used by default in `YOLOV4TinyNetwork`, `YOLOV4Network`
and `YOLOV5Network` (`torch_networks.py`). -/
def cocoPriorShapes : List (ℕ × ℕ) :=
  [(12, 16), (19, 36), (40, 28), (36, 75), (76, 55), (72, 146), (142, 110), (192, 243), (459, 401)]

/-- Shared prior-shape handling: explicit list case of the four constructors. -/
def checkPriorShapes (l : List (ℕ × ℕ)) : Except String (List (ℕ × ℕ) × ℕ) :=
  let anchors_per_cell := l.length / 3
  let modulo := l.length % 3
  if modulo ≠ 0 then .error "The number of provided prior shapes needs to be divisible by 3."
  else .ok (l, anchors_per_cell)

/-- Prior-shape processing of `YOLOV4TinyNetwork.__init__` (`torch_networks.py:431-448`). -/
def yolov4TinyInitPriorShapes (prior_shapes : Option (List (ℕ × ℕ))) :
    Except String (List (ℕ × ℕ) × ℕ) :=
  match prior_shapes with
  | none => .ok (cocoPriorShapes, 3)
  | some l => checkPriorShapes l

/-- Prior-shape processing of `YOLOV4Network.__init__` (`torch_networks.py:576-593`). -/
def yolov4InitPriorShapes (prior_shapes : Option (List (ℕ × ℕ))) :
    Except String (List (ℕ × ℕ) × ℕ) :=
  match prior_shapes with
  | none => .ok (cocoPriorShapes, 3)
  | some l => checkPriorShapes l

/-- Prior-shape processing of `YOLOV5Network.__init__` (`torch_networks.py:758-775`). -/
def yolov5InitPriorShapes (prior_shapes : Option (List (ℕ × ℕ))) :
    Except String (List (ℕ × ℕ) × ℕ) :=
  match prior_shapes with
  | none => .ok (cocoPriorShapes, 3)
  | some l => checkPriorShapes l

/-- Prior-shape processing of `YOLOXNetwork.__init__` (`torch_networks.py:922-929`);
only the default branch differs (one anchor per cell, stride-sized priors). -/
def yoloxInitPriorShapes (prior_shapes : Option (List (ℕ × ℕ))) :
    Except String (List (ℕ × ℕ) × ℕ) :=
  match prior_shapes with
  | none => .ok ([(8, 8), (16, 16), (32, 32)], 1)
  | some l => checkPriorShapes l

/-! ## Post-processing pipeline: `YOLO.process_detections` (`yolo_module.py:273-316`)

    for image_preds in preds:
        boxes = image_preds[..., :4]
        confidences = image_preds[..., 4]
        classprobs = image_preds[..., 5:]
        scores = classprobs * confidences[:, None]
        idxs, labels = (scores > self.confidence_threshold).nonzero().T
        boxes = boxes[idxs]
        scores = scores[idxs, labels]
        keep = batched_nms(boxes, scores, labels, self.nms_threshold)
        keep = keep[: self.detections_per_image]
        ...

One row of the per-image prediction tensor (one predictor) is modelled as a
`Pred`; a batch is a `List (List Pred)`. Out-of-range tensor indexing cannot
occur in the code, so `getD` with a default value models tensor indexing. -/

/-- One predictor's row of the detection tensor: box coordinates (channels 0-3),
objectness confidence (channel 4) and the per-class probabilities (channels 5-). -/
structure Pred where
  box : Box
  confidence : ℚ
  classprobs : List ℚ
deriving DecidableEq, Repr

instance : Inhabited Pred := ⟨⟨default, 0, []⟩⟩

/-- `scores = classprobs * confidences[:, None]` — the score of predictor `p` for
class `c`. -/
def predScore (p : Pred) (c : ℕ) : ℚ := p.classprobs.getD c 0 * p.confidence

/-- `(scores > confidence_threshold).nonzero().T` — the (predictor, class) index
pairs whose score exceeds the threshold, in the row-major order produced by
`Tensor.nonzero`. -/
def selectedPairs (confidence_threshold : ℚ) (image_preds : List Pred) : List (ℕ × ℕ) :=
  (List.range image_preds.length).flatMap fun i =>
    (List.range (image_preds.getD i default).classprobs.length).filterMap fun c =>
      if confidence_threshold < predScore (image_preds.getD i default) c then some (i, c)
      else none

/-! ## `YOLO.process_targets` (`yolo_module.py:318-338`)

    for image_targets in targets:
        boxes = image_targets["boxes"]
        labels = image_targets["labels"]
        if labels.ndim == 2:
            idxs, labels = labels.nonzero().T
            boxes = boxes[idxs]
        result.append({"boxes": boxes, "labels": labels})
-/

/-- The `labels` tensor of a target dictionary: either a one-dimensional list of
class ids (`Int64Tensor[N]`) or a two-dimensional boolean class mask
(`BoolTensor[N, classes]`). -/
inductive TargetLabels
  | single (ls : List ℕ)
  | mask (m : List (List Bool))
deriving DecidableEq, Repr

/-- One image's target dictionary. -/
structure ImageTargets where
  boxes : List Box
  labels : TargetLabels
deriving DecidableEq, Repr

/-- One image's target dictionary after multi-label expansion: `labels` is
always one-dimensional. -/
structure SingleLabelTargets where
  boxes : List Box
  labels : List ℕ
deriving DecidableEq, Repr

/-- `labels.nonzero().T` on a two-dimensional boolean mask: the (row, column)
positions of the true entries, in row-major order. -/
def maskNonzero (m : List (List Bool)) : List (ℕ × ℕ) :=
  (List.range m.length).flatMap fun i =>
    (List.range (m.getD i []).length).filterMap fun c =>
      if (m.getD i []).getD c false then some (i, c) else none

/-- The loop body of `YOLO.process_targets` (`yolo_module.py:330-336`) for one
image. -/
def processImageTargets (image_targets : ImageTargets) : SingleLabelTargets :=
  match image_targets.labels with
  | .single ls => ⟨image_targets.boxes, ls⟩
  | .mask m =>
    let pairs := maskNonzero m
    ⟨pairs.map fun ic => image_targets.boxes.getD ic.1 default,
     pairs.map fun ic => ic.2⟩

/-- `YOLO.process_targets` (`yolo_module.py:318-338`). -/
def process_targets (targets : List ImageTargets) : List SingleLabelTargets :=
  targets.map processImageTargets

/-- `torchvision.ops.box_area`. -/
def boxArea (b : Box) : ℚ := (b.x2 - b.x1) * (b.y2 - b.y1)

/-- Intersection area of two corner-format boxes, clamped at zero as in
`torchvision.ops.box_iou`. -/
def interArea (a b : Box) : ℚ :=
  max 0 (min a.x2 b.x2 - max a.x1 b.x1) * max 0 (min a.y2 b.y2 - max a.y1 b.y1)

/-- `torchvision.ops.box_iou`: intersection over union. -/
def boxIou (a b : Box) : ℚ := interArea a b / (boxArea a + boxArea b - interArea a b)

/-- The greedy suppression loop of `torchvision.ops.nms`, run on a list of
box indices already sorted by decreasing score: keep the first index and drop
every later index whose box has IoU above the threshold with it — restricted,
as in `batched_nms`, to boxes carrying the same class label. -/
def nmsGreedy (boxes : List Box) (labels : List ℕ) (nms_threshold : ℚ) :
    List ℕ → List ℕ
  | [] => []
  | i :: rest =>
    i :: nmsGreedy boxes labels nms_threshold (rest.filter fun j =>
      !(labels.getD j 0 == labels.getD i 0 &&
        decide (nms_threshold < boxIou (boxes.getD i default) (boxes.getD j default))))
termination_by l => l.length
decreasing_by
  exact Nat.lt_succ_of_le (List.length_filter_le _ _)

/-- Score-descending order on box indices: `torchvision.ops.nms` sorts the boxes
by decreasing score before the greedy suppression loop. -/
def scoreOrder (scores : List ℚ) (i j : ℕ) : Prop := scores.getD j 0 ≤ scores.getD i 0

instance (scores : List ℚ) : DecidableRel (scoreOrder scores) := fun _ _ =>
  inferInstanceAs (Decidable (_ ≤ _))

/-- The box indices sorted by decreasing score (a stable sort, as on the CPU). -/
def nmsSortIdxs (scores : List ℚ) : List ℕ :=
  List.insertionSort (scoreOrder scores) (List.range scores.length)

/-- `torchvision.ops.batched_nms(boxes, scores, labels, nms_threshold)`: per-label
non-maximum suppression; returns the kept indices in decreasing order of score. -/
def batched_nms (boxes : List Box) (scores : List ℚ) (labels : List ℕ)
    (nms_threshold : ℚ) : List ℕ :=
  nmsGreedy boxes labels nms_threshold (nmsSortIdxs scores)

/-- The filtered detections for one image: the values of the dictionary appended
to `result` by `process_detections`. -/
structure Detections where
  boxes : List Box
  scores : List ℚ
  labels : List ℕ
deriving DecidableEq, Repr

/-- The loop body of `YOLO.process_detections` (`yolo_module.py:297-314`) for a
single image. -/
def processImageDetections (confidence_threshold nms_threshold : ℚ)
    (detections_per_image : ℕ) (image_preds : List Pred) : Detections :=
  let pairs := selectedPairs confidence_threshold image_preds
  let boxes := pairs.map fun ic => (image_preds.getD ic.1 default).box
  let scores := pairs.map fun ic => predScore (image_preds.getD ic.1 default) ic.2
  let labels := pairs.map fun ic => ic.2
  let keep := batched_nms boxes scores labels nms_threshold
  let keep := keep.take detections_per_image
  { boxes := keep.map fun k => boxes.getD k default
    scores := keep.map fun k => scores.getD k 0
    labels := keep.map fun k => labels.getD k 0 }

/-- `YOLO.process_detections` (`yolo_module.py:273-316`): the per-image loop. -/
def process_detections (confidence_threshold nms_threshold : ℚ)
    (detections_per_image : ℕ) (preds : List (List Pred)) : List Detections :=
  preds.map (processImageDetections confidence_threshold nms_threshold detections_per_image)

/-! ## `YOLO._validate_batch` (`yolo_module.py:340-375`)

Validation inspects the runtime type and shape of the batch elements, so here a
value is a tensor (carrying its shape) or a value of some other Python type.
Python's short-circuiting `or` chains inside the `if` conditions mean the later
disjuncts (`boxes.shape[-1]`, `len(labels)`) are only evaluated when the earlier
rank checks hold; the conditions below are written for the well-defined case,
which coincides with the code on every input (an earlier failing disjunct
already decides the condition). -/

/-- A runtime value received from the data loader: either a tensor, carrying its
shape, or a value of some other Python type, carrying that type's name for the
error message. -/
inductive Val
  | tensor (shape : List ℕ)
  | other (typename : String)
deriving DecidableEq, Repr

/-- One raw target dictionary with its `"boxes"` and `"labels"` entries. -/
structure RawTarget where
  boxes : Val
  labels : Val
deriving DecidableEq, Repr

/-- The per-image check of `_validate_batch` (`yolo_module.py:356-358`). -/
def checkImage (image : Val) : Except String Unit :=
  match image with
  | .tensor _ => .ok ()
  | .other t => .error ("Expected image to be of type Tensor, got " ++ t ++ ".")

/-- The per-target check of `_validate_batch` (`yolo_module.py:360-372`):
boxes must be a tensor of shape `[N, 4]` and labels a tensor of rank 1 or 2
whose first dimension equals `N`. -/
def checkTarget (target : RawTarget) : Except String Unit :=
  match target.boxes with
  | .other t => .error ("Expected target boxes to be of type Tensor, got " ++ t ++ ".")
  | .tensor bshape =>
    if bshape.length ≠ 2 ∨ bshape.getD 1 0 ≠ 4 then
      .error "Expected target boxes to be tensors of shape [N, 4]."
    else
      match target.labels with
      | .other t => .error ("Expected target labels to be of type Tensor, got " ++ t ++ ".")
      | .tensor lshape =>
        if lshape.length < 1 ∨ lshape.length > 2 ∨ lshape.getD 0 0 ≠ bshape.getD 0 0 then
          .error "Expected target labels to be tensors of shape [N] or [N, num_classes]."
        else .ok ()

/-- `YOLO._validate_batch` (`yolo_module.py:340-375`): count check, then the
image loop, then the target loop; on success the batch is returned (the final
`torch.stack(images)` is a tensor operation on the already-validated images and
is modelled as the identity on the list). -/
def _validate_batch (batch : List Val × List RawTarget) :
    Except String (List Val × List RawTarget) :=
  let images := batch.1
  let targets := batch.2
  if images.length ≠ targets.length then
    .error ("Got " ++ toString images.length ++ " images, but targets for " ++
      toString targets.length ++ " images.")
  else
    match images.forM checkImage with
    | .error e => .error e
    | .ok _ =>
      match targets.forM checkTarget with
      | .error e => .error e
      | .ok _ => .ok (images, targets)

/-- The claim's description of a valid target (stated from the spec's words, to
be compared with `checkTarget`): boxes is a tensor of shape `[N, 4]` and labels
a tensor of shape `[N]` or `[N, C]` with the same length `N`. -/
def ValidTarget (target : RawTarget) : Prop :=
  ∃ N : ℕ, target.boxes = Val.tensor [N, 4] ∧
    (target.labels = Val.tensor [N] ∨ ∃ C : ℕ, target.labels = Val.tensor [N, C])

/-- The claim's description of a valid batch (stated from the spec's words, to
be compared with `_validate_batch`): as many images as targets, every image a
tensor, every target valid. -/
def ValidBatch (batch : List Val × List RawTarget) : Prop :=
  batch.1.length = batch.2.length ∧
    (∀ image ∈ batch.1, ∃ shape, image = Val.tensor shape) ∧
    ∀ target ∈ batch.2, ValidTarget target

/-! ## Forward passes (`torch_networks.py:662-703`, `yolo_module.py:114-146`)

The convolutional blocks of `YOLOV4Network` are opaque feature transforms on an
abstract feature type `F`; images and targets are abstract types `Img` and `T`.
The detection layers come from `create_detection_layer`
(`pl_bolts/models/detection/yolo/layers.py`), which is not among the sources,
and are modelled from the spec. -/

/-- A three-component loss vector: (overlap, confidence, classification). -/
abbrev Vec3 : Type := ℚ × ℚ × ℚ

/-- Modelled from the spec: a detection layer, produced by
`create_detection_layer` in `pl_bolts/models/detection/yolo/layers.py`, which is
missing from the sources. Per spec §4.4 the layer decodes its input feature map
into detections independently of the targets, and, when targets are given,
additionally runs the matcher and loss aggregator, storing a three-component
loss vector (`losses`) and a scalar hit count (`hits`) as layer attributes; the
returned raw detections are the same regardless. The three outputs are modelled
as functions of the layer's inputs. -/
structure DetectionLayer (F T : Type) where
  predict : F → ℕ × ℕ → List ℚ
  lossesOf : F → ℕ × ℕ → T → Vec3
  hitsOf : F → ℕ × ℕ → T → ℕ

/-- The call `layer(input, image_size, targets)` together with the caller's
subsequent reads of `layer.losses` and `layer.hits`. -/
def DetectionLayer.run {F T : Type} (layer : DetectionLayer F T) (input : F)
    (image_size : ℕ × ℕ) (targets : Option T) : List ℚ × Option (Vec3 × ℕ) :=
  (layer.predict input image_size,
   targets.map fun t => (layer.lossesOf input image_size t, layer.hitsOf input image_size t))

/-- `YOLOV4Network` (`torch_networks.py:527-703`): the backbone returns the
last three stage outputs (`self.backbone(x)[-3:]`), `cat` is `torch.cat` along
the channel dimension, and `image_size` is `get_image_size`. -/
structure YOLOV4Network (Img F T : Type) where
  image_size : Img → ℕ × ℕ
  backbone : Img → F × F × F
  pre3 : F → F
  pre4 : F → F
  fpn3 : F → F
  fpn4 : F → F
  pan4 : F → F
  pan5 : F → F
  out3 : F → F
  out4 : F → F
  out5 : F → F
  upsample4 : F → F
  upsample5 : F → F
  downsample3 : F → F
  downsample4 : F → F
  cat : F → F → F
  detect3 : DetectionLayer F T
  detect4 : DetectionLayer F T
  detect5 : DetectionLayer F T

/-- `YOLOV4Network.forward` (`torch_networks.py:662-703`): feature pyramid
wiring, then the three detection layer calls; losses and hits are collected
only when targets are given. -/
def YOLOV4Network.forward {Img F T : Type} (net : YOLOV4Network Img F T) (x : Img)
    (targets : Option T) : List (List ℚ) × List Vec3 × List ℕ :=
  let image_size := net.image_size x
  let c := net.backbone x
  let c3 := c.1
  let c4 := c.2.1
  let c5 := c.2.2
  let p4 := net.fpn4 (net.cat (net.pre4 c4) (net.upsample5 c5))
  let n3 := net.fpn3 (net.cat (net.pre3 c3) (net.upsample4 p4))
  let n4 := net.pan4 (net.cat (net.downsample3 n3) p4)
  let n5 := net.pan5 (net.cat (net.downsample4 n4) c5)
  let y3 := net.detect3.run (net.out3 n3) image_size targets
  let y4 := net.detect4.run (net.out4 n4) image_size targets
  let y5 := net.detect5.run (net.out5 n5) image_size targets
  match targets with
  | none => ([y3.1, y4.1, y5.1], [], [])
  | some t =>
    ([y3.1, y4.1, y5.1],
     [net.detect3.lossesOf (net.out3 n3) image_size t,
      net.detect4.lossesOf (net.out4 n4) image_size t,
      net.detect5.lossesOf (net.out5 n5) image_size t],
     [net.detect3.hitsOf (net.out3 n3) image_size t,
      net.detect4.hitsOf (net.out4 n4) image_size t,
      net.detect5.hitsOf (net.out5 n5) image_size t])

/-- The per-layer hit rates logged by `YOLO.forward` (`yolo_module.py:140-143`):
`torch.true_divide(layer_hits, total_hits) if total_hits > 0 else 1.0`. -/
def hitRates (hits : List ℕ) : List ℚ :=
  let total_hits := hits.sum
  hits.map fun (layer_hits : ℕ) =>
    if 0 < total_hits then (layer_hits : ℚ) / (total_hits : ℚ) else 1

/-- `torch.stack(losses).sum(0)` (`yolo_module.py:145`): component-wise sum of
the per-layer loss vectors. -/
def stackSum (losses : List Vec3) : Vec3 :=
  losses.foldr (fun a b => (a.1 + b.1, a.2.1 + b.2.1, a.2.2 + b.2.2)) (0, 0, 0)

/-- What `YOLO.forward` returns, together with the hit rates it logs:
without targets the detections alone (`losses = none`, nothing logged). -/
structure ForwardResult where
  detections : List ℚ
  losses : Option Vec3
  logged_hit_rates : List ℚ

/-- `YOLO.forward` (`yolo_module.py:114-146`). `self.network` is any module
returning per-layer detections, losses and hits; `torch.cat(detections, 1)` is
modelled as concatenation of the per-layer detection lists. -/
def yoloForward {Img T : Type}
    (network : Img → Option T → List (List ℚ) × List Vec3 × List ℕ)
    (images : Img) (targets : Option T) : ForwardResult :=
  let r := network images targets
  let detections := r.1.flatten
  match targets with
  | none => ⟨detections, none, []⟩
  | some _ => ⟨detections, some (stackSum r.2.1), hitRates r.2.2⟩

end YoloSpec

namespace YoloSpec

theorem checkPriorShapes_not_dvd {l : List (ℕ × ℕ)} (h : ¬ (3 ∣ l.length)) :
    checkPriorShapes l =
      .error "The number of provided prior shapes needs to be divisible by 3." := by
  have hmod : l.length % 3 ≠ 0 := fun hc => h (Nat.dvd_of_mod_eq_zero hc)
  simp [checkPriorShapes, hmod]

theorem checkPriorShapes_mul {l : List (ℕ × ℕ)} {n : ℕ} (h : l.length = 3 * n) :
    checkPriorShapes l = .ok (l, n) := by
  have hmod : l.length % 3 = 0 := by omega
  have hdiv : l.length / 3 = n := by omega
  simp [checkPriorShapes, hmod, hdiv]

/-- Membership in the thresholded (predictor, class) pair list is exactly
"the score exceeds the confidence threshold" at a valid index pair. -/
theorem selectedPairs_mem (confidence_threshold : ℚ) (image_preds : List Pred) (i c : ℕ) :
    (i, c) ∈ selectedPairs confidence_threshold image_preds ↔
      i < image_preds.length ∧
        c < (image_preds.getD i default).classprobs.length ∧
          confidence_threshold < predScore (image_preds.getD i default) c := by
  simp only [selectedPairs, List.mem_flatMap, List.mem_filterMap, List.mem_range]
  constructor
  · rintro ⟨i', hi', c', hc', hif⟩
    split at hif
    · cases hif
      exact ⟨hi', hc', by assumption⟩
    · cases hif
  · rintro ⟨hi, hc, hs⟩
    exact ⟨i, hi, c, hc, by rw [if_pos hs]⟩

theorem filterMap_guard_map {α : Type} (P : ℕ → Prop) [DecidablePred P] (g : ℕ → α) :
    ∀ l : List ℕ,
      l.filterMap (fun c => if P c then some (g c) else none) =
        (l.filter fun c => decide (P c)).map g
  | [] => rfl
  | a :: l => by
    by_cases h : P a <;> simp [filterMap_guard_map P g l, h]

theorem filter_range_one (P : ℕ → Prop) [DecidablePred P] :
    ∀ (n c1 : ℕ), c1 < n → (∀ c, c < n → (P c ↔ c = c1)) →
      (List.range n).filter (fun c => decide (P c)) = [c1]
  | 0, c1, h1, _ => absurd h1 (Nat.not_lt_zero c1)
  | n + 1, c1, h1, hP => by
    rw [List.range_succ, List.filter_append]
    rcases Nat.lt_succ_iff_lt_or_eq.mp h1 with h | h
    · have hrest : (List.filter (fun c => decide (P c)) [n]) = [] := by
        have : ¬ P n := fun hc => Nat.lt_irrefl n (((hP n (Nat.lt_succ_self n)).mp hc) ▸ h)
        simp [this]
      rw [filter_range_one P n c1 h fun c hc => hP c (Nat.lt_succ_of_lt hc), hrest,
        List.append_nil]
    · subst h
      have hnil : (List.range c1).filter (fun c => decide (P c)) = [] := by
        rw [List.filter_eq_nil_iff]
        intro a ha
        rw [List.mem_range] at ha
        simpa using fun hc => Nat.lt_irrefl c1 (((hP a (Nat.lt_succ_of_lt ha)).mp hc) ▸ ha)
      have hone : (List.filter (fun c => decide (P c)) [c1]) = [c1] := by
        simp [(hP c1 (Nat.lt_succ_self c1)).mpr rfl]
      rw [hnil, hone, List.nil_append]

theorem filter_range_two (P : ℕ → Prop) [DecidablePred P] :
    ∀ (n c1 c2 : ℕ), c1 < c2 → c2 < n → (∀ c, c < n → (P c ↔ c = c1 ∨ c = c2)) →
      (List.range n).filter (fun c => decide (P c)) = [c1, c2]
  | 0, _, c2, _, h2, _ => absurd h2 (Nat.not_lt_zero c2)
  | n + 1, c1, c2, h12, h2, hP => by
    rw [List.range_succ, List.filter_append]
    rcases Nat.lt_succ_iff_lt_or_eq.mp h2 with h | h
    · have hrest : (List.filter (fun c => decide (P c)) [n]) = [] := by
        have : ¬ P n := by
          intro hc
          rcases (hP n (Nat.lt_succ_self n)).mp hc with rfl | rfl
          · exact Nat.lt_irrefl n (h12.trans h)
          · exact Nat.lt_irrefl n h
        simp [this]
      rw [filter_range_two P n c1 c2 h12 h fun c hc => hP c (Nat.lt_succ_of_lt hc), hrest,
        List.append_nil]
    · subst h
      have hfirst : (List.range c2).filter (fun c => decide (P c)) = [c1] := by
        refine filter_range_one P c2 c1 h12 fun c hc => ⟨fun hc' => ?_, fun hc' => ?_⟩
        · rcases (hP c (Nat.lt_succ_of_lt hc)).mp hc' with rfl | rfl
          · rfl
          · exact absurd hc (Nat.lt_irrefl c)
        · exact (hP c (Nat.lt_succ_of_lt hc)).mpr (Or.inl hc')
      have hlast : (List.filter (fun c => decide (P c)) [c2]) = [c2] := by
        simp [(hP c2 (Nat.lt_succ_self c2)).mpr (Or.inr rfl)]
      rw [hfirst, hlast]
      rfl

/-- The greedy suppression loop only removes elements: its output is a sublist
of its input. -/
theorem nmsGreedy_sublist (boxes : List Box) (labels : List ℕ) (nms_threshold : ℚ) :
    ∀ l : List ℕ, List.Sublist (nmsGreedy boxes labels nms_threshold l) l
  | [] => by rw [nmsGreedy]
  | i :: rest => by
    rw [nmsGreedy]
    exact ((nmsGreedy_sublist boxes labels nms_threshold _).trans
      (List.filter_sublist rest)).cons₂ i
termination_by l => l.length
decreasing_by
  exact Nat.lt_succ_of_le (List.length_filter_le _ _)

/-- The index list fed to the greedy loop is sorted by decreasing score. -/
theorem sorted_nmsSortIdxs (scores : List ℚ) :
    (nmsSortIdxs scores).Sorted (scoreOrder scores) := by
  haveI : IsTotal ℕ (scoreOrder scores) := ⟨fun a b => le_total _ _⟩
  haveI : IsTrans ℕ (scoreOrder scores) := ⟨fun _ _ _ hab hbc => le_trans hbc hab⟩
  exact List.sorted_insertionSort (scoreOrder scores) (List.range scores.length)

/-- The kept indices returned by `batched_nms`, and any prefix of them, are
sorted by decreasing score. -/
theorem sorted_batched_nms_take (boxes : List Box) (scores : List ℚ) (labels : List ℕ)
    (nms_threshold : ℚ) (n : ℕ) :
    ((batched_nms boxes scores labels nms_threshold).take n).Sorted (scoreOrder scores) := by
  have h1 : (batched_nms boxes scores labels nms_threshold).Sorted (scoreOrder scores) :=
    (sorted_nmsSortIdxs scores).sublist (nmsGreedy_sublist boxes labels nms_threshold _)
  exact h1.sublist (List.take_sublist n _)

/-- With exactly one predictor, the selected pairs are the above-threshold
classes of that predictor, in class order. -/
theorem selectedPairs_single (confidence_threshold : ℚ) (p : Pred) :
    selectedPairs confidence_threshold [p] =
      (List.range p.classprobs.length).filterMap fun c =>
        if confidence_threshold < predScore p c then some ((0 : ℕ), c) else none := by
  simp [selectedPairs, List.range_succ]

/-- With exactly one predictor whose above-threshold classes are exactly
`{c1, c2}`, the selected pairs are `[(0, c1), (0, c2)]`. -/
theorem selectedPairs_single_two (confidence_threshold : ℚ) (p : Pred) (c1 c2 : ℕ)
    (h12 : c1 < c2) (h2 : c2 < p.classprobs.length)
    (hP : ∀ c, c < p.classprobs.length →
      (confidence_threshold < predScore p c ↔ c = c1 ∨ c = c2)) :
    selectedPairs confidence_threshold [p] = [(0, c1), (0, c2)] := by
  rw [selectedPairs_single,
    filterMap_guard_map (fun c => confidence_threshold < predScore p c) (fun c => ((0 : ℕ), c)),
    filter_range_two (fun c => confidence_threshold < predScore p c)
      p.classprobs.length c1 c2 h12 h2 hP]
  rfl

/-- `batched_nms` on two boxes with distinct labels keeps both, in score order. -/
theorem batched_nms_two_diff_labels (b1 b2 : Box) (s1 s2 : ℚ) (l1 l2 : ℕ)
    (hne : l1 ≠ l2) (nms_threshold : ℚ) :
    batched_nms [b1, b2] [s1, s2] [l1, l2] nms_threshold =
      if s2 ≤ s1 then [0, 1] else [1, 0] := by
  have hbeq21 : (l2 == l1) = false := beq_eq_false_iff_ne.mpr (Ne.symm hne)
  have hbeq12 : (l1 == l2) = false := beq_eq_false_iff_ne.mpr hne
  by_cases h : s2 ≤ s1 <;>
    simp [batched_nms, nmsSortIdxs, List.insertionSort, List.orderedInsert, scoreOrder, h,
      nmsGreedy, hbeq21, hbeq12, List.range_succ]

end YoloSpec

/-- C1: for every image, `process_detections` computes `score = classprob *
confidence` for each (predictor, class) pair and selects exactly those pairs
whose score exceeds `confidence_threshold` (first conjunct); a single predictor
whose score exceeds the threshold for exactly two classes `c1 < c2` appears as
two separate output entries, each with its own label and score, sharing
identical box coordinates (second conjunct; the output order is by decreasing
score). -/
theorem C1_multilabel_duplication (confidence_threshold nms_threshold : ℚ)
    (detections_per_image : ℕ) :
    (∀ (image_preds : List YoloSpec.Pred) (i c : ℕ),
        (i, c) ∈ YoloSpec.selectedPairs confidence_threshold image_preds ↔
          i < image_preds.length ∧
            c < (image_preds.getD i default).classprobs.length ∧
              confidence_threshold < YoloSpec.predScore (image_preds.getD i default) c) ∧
    (∀ (p : YoloSpec.Pred) (c1 c2 : ℕ),
        c1 < c2 → c2 < p.classprobs.length →
        (∀ c, c < p.classprobs.length →
          (confidence_threshold < YoloSpec.predScore p c ↔ c = c1 ∨ c = c2)) →
        2 ≤ detections_per_image →
        (YoloSpec.processImageDetections confidence_threshold nms_threshold
            detections_per_image [p]).boxes = [p.box, p.box] ∧
        (((YoloSpec.processImageDetections confidence_threshold nms_threshold
              detections_per_image [p]).labels = [c1, c2] ∧
          (YoloSpec.processImageDetections confidence_threshold nms_threshold
              detections_per_image [p]).scores =
            [YoloSpec.predScore p c1, YoloSpec.predScore p c2]) ∨
         ((YoloSpec.processImageDetections confidence_threshold nms_threshold
              detections_per_image [p]).labels = [c2, c1] ∧
          (YoloSpec.processImageDetections confidence_threshold nms_threshold
              detections_per_image [p]).scores =
            [YoloSpec.predScore p c2, YoloSpec.predScore p c1]))) := by
  refine ⟨fun image_preds i c => YoloSpec.selectedPairs_mem _ _ _ _, ?_⟩
  intro p c1 c2 h12 h2 hP hdpi
  have hpairs := YoloSpec.selectedPairs_single_two confidence_threshold p c1 c2 h12 h2 hP
  have hne : c1 ≠ c2 := Nat.ne_of_lt h12
  have htake : ∀ l : List ℕ, l.length = 2 → l.take detections_per_image = l := fun l hl =>
    List.take_of_length_le (hl ▸ hdpi)
  simp only [YoloSpec.processImageDetections, hpairs, List.map_cons, List.map_nil,
    List.getD_cons_zero]
  rw [YoloSpec.batched_nms_two_diff_labels _ _ _ _ _ _ hne]
  by_cases h : YoloSpec.predScore p c2 ≤ YoloSpec.predScore p c1
  · rw [if_pos h, htake [0, 1] rfl]
    exact ⟨rfl, Or.inl ⟨rfl, rfl⟩⟩
  · rw [if_neg h, htake [1, 0] rfl]
    exact ⟨rfl, Or.inr ⟨rfl, rfl⟩⟩

/-- Witness for C1: one predictor with confidence 1 and class probabilities
`[3/5, 7/10]` against threshold `1/2` yields two entries sharing the same box. -/
theorem C1_multilabel_duplication_witness :
    (YoloSpec.processImageDetections (1 / 2) (9 / 20) 300
        [⟨⟨0, 0, 1, 1⟩, 1, [3 / 5, 7 / 10]⟩]).boxes = [⟨0, 0, 1, 1⟩, ⟨0, 0, 1, 1⟩] ∧
    (((YoloSpec.processImageDetections (1 / 2) (9 / 20) 300
          [⟨⟨0, 0, 1, 1⟩, 1, [3 / 5, 7 / 10]⟩]).labels = [0, 1] ∧
      (YoloSpec.processImageDetections (1 / 2) (9 / 20) 300
          [⟨⟨0, 0, 1, 1⟩, 1, [3 / 5, 7 / 10]⟩]).scores =
        [YoloSpec.predScore ⟨⟨0, 0, 1, 1⟩, 1, [3 / 5, 7 / 10]⟩ 0,
         YoloSpec.predScore ⟨⟨0, 0, 1, 1⟩, 1, [3 / 5, 7 / 10]⟩ 1]) ∨
     ((YoloSpec.processImageDetections (1 / 2) (9 / 20) 300
          [⟨⟨0, 0, 1, 1⟩, 1, [3 / 5, 7 / 10]⟩]).labels = [1, 0] ∧
      (YoloSpec.processImageDetections (1 / 2) (9 / 20) 300
          [⟨⟨0, 0, 1, 1⟩, 1, [3 / 5, 7 / 10]⟩]).scores =
        [YoloSpec.predScore ⟨⟨0, 0, 1, 1⟩, 1, [3 / 5, 7 / 10]⟩ 1,
         YoloSpec.predScore ⟨⟨0, 0, 1, 1⟩, 1, [3 / 5, 7 / 10]⟩ 0])) :=
  (C1_multilabel_duplication (1 / 2) (9 / 20) 300).2
    ⟨⟨0, 0, 1, 1⟩, 1, [3 / 5, 7 / 10]⟩ 0 1 (by decide) (by decide)
    (by
      intro c hc
      have hc2 : c < 2 := by simpa using hc
      interval_cases c <;> norm_num [YoloSpec.predScore]) (by decide)

/-- C8: for an image where no (predictor, class) pair scores above the
confidence threshold, `process_detections` returns empty boxes, scores, and
labels tensors rather than raising an error. -/
theorem C8_empty_detections (confidence_threshold nms_threshold : ℚ)
    (detections_per_image : ℕ) (image_preds : List YoloSpec.Pred)
    (h : ∀ i < image_preds.length,
      ∀ c < (image_preds.getD i default).classprobs.length,
        YoloSpec.predScore (image_preds.getD i default) c ≤ confidence_threshold) :
    YoloSpec.processImageDetections confidence_threshold nms_threshold
      detections_per_image image_preds = ⟨[], [], []⟩ := by
  have hpairs : YoloSpec.selectedPairs confidence_threshold image_preds = [] := by
    apply List.eq_nil_iff_forall_not_mem.mpr
    rintro ⟨i, c⟩ hm
    rw [YoloSpec.selectedPairs_mem] at hm
    exact absurd hm.2.2 (not_lt.mpr (h i hm.1 c hm.2.1))
  simp [YoloSpec.processImageDetections, hpairs, YoloSpec.batched_nms, YoloSpec.nmsSortIdxs,
    YoloSpec.nmsGreedy, List.insertionSort]

/-- Witness for C8: a single predictor whose only class score `1/10` stays below
the threshold `1/2` produces the empty result dictionary. -/
theorem C8_empty_detections_witness :
    YoloSpec.processImageDetections (1 / 2) (9 / 20) 300
      [⟨⟨0, 0, 1, 1⟩, 1, [1 / 10]⟩] = ⟨[], [], []⟩ :=
  C8_empty_detections (1 / 2) (9 / 20) 300 [⟨⟨0, 0, 1, 1⟩, 1, [1 / 10]⟩] (by
    intro i hi c hc
    have hi1 : i < 1 := by simpa using hi
    interval_cases i
    have hc1 : c < 1 := by simpa using hc
    interval_cases c
    norm_num [YoloSpec.predScore])

/-- C2: for every image, the output of `process_detections` contains at most
`detections_per_image` entries (all three result tensors), and the kept entries
are sorted by non-increasing score. `process_detections` itself applies the
per-image body to every image of the batch. -/
theorem C2_detections_per_image_truncation (confidence_threshold nms_threshold : ℚ)
    (detections_per_image : ℕ) (image_preds : List YoloSpec.Pred)
    (preds : List (List YoloSpec.Pred)) :
    (YoloSpec.processImageDetections confidence_threshold nms_threshold
        detections_per_image image_preds).boxes.length ≤ detections_per_image ∧
    (YoloSpec.processImageDetections confidence_threshold nms_threshold
        detections_per_image image_preds).scores.length ≤ detections_per_image ∧
    (YoloSpec.processImageDetections confidence_threshold nms_threshold
        detections_per_image image_preds).labels.length ≤ detections_per_image ∧
    (YoloSpec.processImageDetections confidence_threshold nms_threshold
        detections_per_image image_preds).scores.Sorted (· ≥ ·) ∧
    YoloSpec.process_detections confidence_threshold nms_threshold detections_per_image preds =
      preds.map (YoloSpec.processImageDetections confidence_threshold nms_threshold
        detections_per_image) := by
  refine ⟨?_, ?_, ?_, ?_, rfl⟩ <;>
    simp only [YoloSpec.processImageDetections, List.length_map]
  · exact (List.length_take_le _ _).trans (le_refl _)
  · exact (List.length_take_le _ _).trans (le_refl _)
  · exact (List.length_take_le _ _).trans (le_refl _)
  · rw [List.Sorted, List.pairwise_map]
    exact YoloSpec.sorted_batched_nms_take _ _ _ _ _

/-- C9: `aligned_iou` applied to the dimension sets `[[1,1],[10,1],[100,10]]` and
`[[1,10],[2,20]]` returns exactly the 3-by-2 matrix
`[[1/10, 1/40], [1/19, 2/48], [10/1000, 20/1020]]` (exact on `ℚ`, which is the
"within floating tolerance" statement of the test `test_aligned_iou`). -/
theorem C9_aligned_iou_example :
    YoloSpec.aligned_iou [(1, 1), (10, 1), (100, 10)] [(1, 10), (2, 20)] =
      [[1 / 10, 1 / 40], [1 / 19, 2 / 48], [10 / 1000, 20 / 1020]] := by
  norm_num [YoloSpec.aligned_iou, min_def]

/-- C7: constructing any of the four networks (`YOLOV4TinyNetwork`, `YOLOV4Network`,
`YOLOV5Network`, `YOLOXNetwork`) with an explicit `prior_shapes` list whose length is
not divisible by 3 raises a `ValueError` at construction time; a list of length `3 * n`
is accepted and yields `n` anchors per cell. -/
theorem C7_prior_shapes_validation (l : List (ℕ × ℕ)) :
    (¬ (3 ∣ l.length) →
      YoloSpec.yolov4TinyInitPriorShapes (some l) =
          .error "The number of provided prior shapes needs to be divisible by 3." ∧
      YoloSpec.yolov4InitPriorShapes (some l) =
          .error "The number of provided prior shapes needs to be divisible by 3." ∧
      YoloSpec.yolov5InitPriorShapes (some l) =
          .error "The number of provided prior shapes needs to be divisible by 3." ∧
      YoloSpec.yoloxInitPriorShapes (some l) =
          .error "The number of provided prior shapes needs to be divisible by 3.") ∧
    (∀ n : ℕ, l.length = 3 * n →
      YoloSpec.yolov4TinyInitPriorShapes (some l) = .ok (l, n) ∧
      YoloSpec.yolov4InitPriorShapes (some l) = .ok (l, n) ∧
      YoloSpec.yolov5InitPriorShapes (some l) = .ok (l, n) ∧
      YoloSpec.yoloxInitPriorShapes (some l) = .ok (l, n)) := by
  constructor
  · intro h
    refine ⟨?_, ?_, ?_, ?_⟩ <;>
      simp [YoloSpec.yolov4TinyInitPriorShapes, YoloSpec.yolov4InitPriorShapes,
        YoloSpec.yolov5InitPriorShapes, YoloSpec.yoloxInitPriorShapes,
        YoloSpec.checkPriorShapes_not_dvd h]
  · intro n h
    refine ⟨?_, ?_, ?_, ?_⟩ <;>
      simp [YoloSpec.yolov4TinyInitPriorShapes, YoloSpec.yolov4InitPriorShapes,
        YoloSpec.yolov5InitPriorShapes, YoloSpec.yoloxInitPriorShapes,
        YoloSpec.checkPriorShapes_mul h]

/-- Witness for C7: a list of 4 prior shapes is rejected by all four constructors,
and a list of 6 prior shapes is accepted with 2 anchors per cell. -/
theorem C7_prior_shapes_validation_witness :
    YoloSpec.yolov4TinyInitPriorShapes (some [(1, 2), (3, 4), (5, 6), (7, 8)]) =
        .error "The number of provided prior shapes needs to be divisible by 3." ∧
    YoloSpec.yoloxInitPriorShapes (some [(1, 2), (3, 4), (5, 6), (7, 8), (9, 10), (11, 12)]) =
        .ok ([(1, 2), (3, 4), (5, 6), (7, 8), (9, 10), (11, 12)], 2) := by
  refine ⟨((C7_prior_shapes_validation [(1, 2), (3, 4), (5, 6), (7, 8)]).1 (by decide)).1, ?_⟩
  exact (((C7_prior_shapes_validation
    [(1, 2), (3, 4), (5, 6), (7, 8), (9, 10), (11, 12)]).2 2 (by decide)).2.2).2

namespace YoloSpec

/-- Counting the true entries of a boolean row by index range equals `count true`. -/
theorem length_filter_range_getD :
    ∀ row : List Bool,
      ((List.range row.length).filter fun c => row.getD c false).length = row.count true
  | [] => rfl
  | b :: rest => by
    rw [List.length_cons, List.range_succ_eq_map, List.filter_cons, List.filter_map,
      List.count_cons]
    have hcomp : ((fun c => (b :: rest).getD c false) ∘ Nat.succ) =
        fun c => rest.getD c false := by
      funext c
      simp [List.getD]
    rw [hcomp]
    have IH := length_filter_range_getD rest
    cases b
    · simpa using IH
    · simp only [List.getD] at IH ⊢
      simp at IH ⊢
      omega

/-- Indexing a list over its whole index range recovers a plain `map`. -/
theorem map_getD_range {α β : Type} (f : α → β) (d : α) :
    ∀ l : List α, (List.range l.length).map (fun i => f (l.getD i d)) = l.map f
  | [] => rfl
  | a :: rest => by
    rw [List.length_cons, List.range_succ_eq_map, List.map_cons, List.map_map]
    have hcomp : ((fun i => f ((a :: rest).getD i d)) ∘ Nat.succ) =
        fun i => f (rest.getD i d) := by
      funext i
      simp [List.getD]
    rw [hcomp, map_getD_range f d rest]
    simp [List.getD]

/-- The row-major enumeration of a row's true entries, as produced inside
`maskNonzero`, has one element per true entry of the row. -/
theorem length_maskNonzero_row (i : ℕ) (row : List Bool) :
    ((List.range row.length).filterMap fun c =>
        if row.getD c false then some (i, c) else none).length = row.count true := by
  rw [filterMap_guard_map (fun c => row.getD c false = true) (fun c => (i, c)),
    List.length_map]
  have : (fun c => decide (row.getD c false = true)) = fun c => row.getD c false := by
    funext c
    cases h : row.getD c false <;> simp [h]
  rw [this, length_filter_range_getD]

end YoloSpec

/-- C10: `process_targets` leaves a target with one-dimensional labels unchanged
(same boxes, same labels); a target with a two-dimensional boolean class mask is
expanded into single-label form — one (box, label) output entry for every true
entry of the mask in row-major order, a box being repeated once for each of its
true class labels, so the output length is the total number of true mask
entries. -/
theorem C10_process_targets_expansion :
    (∀ (boxes : List YoloSpec.Box) (ls : List ℕ),
        YoloSpec.processImageTargets ⟨boxes, .single ls⟩ = ⟨boxes, ls⟩) ∧
    (∀ (boxes : List YoloSpec.Box) (m : List (List Bool)),
        ((YoloSpec.processImageTargets ⟨boxes, .mask m⟩).boxes.zip
            (YoloSpec.processImageTargets ⟨boxes, .mask m⟩).labels =
          (List.range m.length).flatMap fun i =>
            (List.range (m.getD i []).length).filterMap fun c =>
              if (m.getD i []).getD c false then some (boxes.getD i default, c)
              else none) ∧
        (YoloSpec.processImageTargets ⟨boxes, .mask m⟩).labels.length =
          (m.map fun row => row.count true).sum) ∧
    YoloSpec.process_targets = List.map YoloSpec.processImageTargets := by
  refine ⟨fun boxes ls => rfl, fun boxes m => ⟨?_, ?_⟩, rfl⟩
  · simp only [YoloSpec.processImageTargets, YoloSpec.maskNonzero]
    rw [List.zip_map']
    rw [List.map_flatMap]
    congr 1
    funext i
    rw [List.map_filterMap]
    congr 1
    funext c
    by_cases h : (m.getD i []).getD c false <;> simp [h]
  · simp only [YoloSpec.processImageTargets, YoloSpec.maskNonzero, List.length_map]
    rw [List.length_flatMap]
    simp only [Function.comp_def]
    have h2 : List.map (fun i => (List.filterMap (fun c =>
          if (m.getD i []).getD c false = true then some (i, c) else none)
            (List.range (m.getD i []).length)).length) (List.range m.length) =
        List.map (fun i => (m.getD i []).count true) (List.range m.length) :=
      List.map_congr_left fun i _ => YoloSpec.length_maskNonzero_row i (m.getD i [])
    rw [h2, YoloSpec.map_getD_range (fun row => row.count true) ([] : List Bool) m]

namespace YoloSpec

/-- `checkImage` succeeds exactly on tensors. -/
theorem checkImage_ok_iff (image : Val) :
    checkImage image = .ok () ↔ ∃ shape, image = Val.tensor shape := by
  cases image <;> simp [checkImage]

/-- A monadic loop over `Except` succeeds exactly when every iteration does. -/
theorem forM_ok_iff {α : Type} (f : α → Except String Unit) :
    ∀ l : List α, l.forM f = .ok () ↔ ∀ a ∈ l, f a = .ok ()
  | [] => by
    constructor
    · intro _ a ha
      exact absurd ha (List.not_mem_nil a)
    · intro _
      rfl
  | a :: l => by
    have hcons : (a :: l).forM f = (f a >>= fun _ => l.forM f) := rfl
    rw [hcons]
    cases h : f a with
    | error e =>
      have hred : ((Except.error e : Except String Unit) >>= fun _ => l.forM f) =
          (Except.error e : Except String Unit) := rfl
      rw [hred]
      constructor
      · intro hok
        exact Except.noConfusion hok
      · intro hall
        have := hall a (List.mem_cons_self a l)
        rw [h] at this
        exact Except.noConfusion this
    | ok u =>
      cases u
      have hred : ((Except.ok () : Except String Unit) >>= fun _ => l.forM f) = l.forM f := rfl
      rw [hred, forM_ok_iff f l]
      constructor
      · intro hl b hb
        rcases List.mem_cons.mp hb with rfl | hb
        · exact h
        · exact hl b hb
      · intro hall b hb
        exact hall b (List.mem_cons_of_mem a hb)

/-- `checkTarget` succeeds exactly on targets satisfying the claimed shape
contract. -/
theorem checkTarget_ok_iff (target : RawTarget) :
    checkTarget target = .ok () ↔ ValidTarget target := by
  obtain ⟨b, lab⟩ := target
  cases b with
  | other s =>
    constructor
    · intro h
      exact absurd h (by simp [checkTarget])
    · rintro ⟨N, hbox, _⟩
      exact Val.noConfusion hbox
  | tensor bshape =>
    by_cases hb : bshape.length ≠ 2 ∨ bshape.getD 1 0 ≠ 4
    · constructor
      · intro h
        simp only [checkTarget] at h
        rw [if_pos hb] at h
        exact Except.noConfusion h
      · rintro ⟨N, hbox, _⟩
        rw [Val.tensor.injEq] at hbox
        subst hbox
        simp [List.getD] at hb
    · push_neg at hb
      obtain ⟨hb2, hb4⟩ := hb
      obtain ⟨x, y, rfl⟩ := List.length_eq_two.mp hb2
      have hy : y = 4 := by simpa [List.getD] using hb4
      subst hy
      have hcond : ¬ (([x, 4] : List ℕ).length ≠ 2 ∨ ([x, 4] : List ℕ).getD 1 0 ≠ 4) := by
        simp [List.getD]
      cases lab with
      | other s =>
        constructor
        · intro h
          simp only [checkTarget] at h
          rw [if_neg hcond] at h
          exact Except.noConfusion h
        · rintro ⟨N, hbox, hlab | ⟨C, hlab⟩⟩ <;> exact Val.noConfusion hlab
      | tensor lshape =>
        have hx0 : ([x, 4] : List ℕ).getD 0 0 = x := rfl
        by_cases hl : lshape.length < 1 ∨ lshape.length > 2 ∨
            lshape.getD 0 0 ≠ ([x, 4] : List ℕ).getD 0 0
        · constructor
          · intro h
            simp only [checkTarget] at h
            rw [if_neg hcond, if_pos hl] at h
            exact Except.noConfusion h
          · rintro ⟨N, hbox, hlab | ⟨C, hlab⟩⟩
            · rw [Val.tensor.injEq] at hbox hlab
              injection hbox with hxN hr
              subst hxN
              subst hlab
              simp [List.getD] at hl
            · rw [Val.tensor.injEq] at hbox hlab
              injection hbox with hxN hr
              subst hxN
              subst hlab
              simp [List.getD] at hl
        · have hok : checkTarget ⟨Val.tensor [x, 4], Val.tensor lshape⟩ = .ok () := by
            simp only [checkTarget]
            rw [if_neg hcond, if_neg hl]
          rw [hok]
          push_neg at hl
          obtain ⟨hl1, hl2, hl0⟩ := hl
          rw [hx0] at hl0
          constructor
          · intro _
            refine ⟨x, rfl, ?_⟩
            have : lshape.length = 1 ∨ lshape.length = 2 := by omega
            rcases this with h1 | h2
            · obtain ⟨z, rfl⟩ := List.length_eq_one.mp h1
              left
              rw [show z = x from by simpa [List.getD] using hl0]
            · obtain ⟨z, w, rfl⟩ := List.length_eq_two.mp h2
              right
              exact ⟨w, by rw [show z = x from by simpa [List.getD] using hl0]⟩
          · intro _
            rfl

/-- `_validate_batch` succeeds exactly on valid batches, returning the batch. -/
theorem validate_batch_ok_iff (batch : List Val × List RawTarget) :
    (∃ r, _validate_batch batch = .ok r) ↔ ValidBatch batch := by
  obtain ⟨images, targets⟩ := batch
  simp only [_validate_batch, ValidBatch]
  by_cases hlen : images.length ≠ targets.length
  · rw [if_pos hlen]
    constructor
    · rintro ⟨r, hr⟩
      exact Except.noConfusion hr
    · rintro ⟨h, -⟩
      exact absurd h hlen
  · rw [if_neg hlen]
    push_neg at hlen
    cases him : images.forM checkImage with
    | error e =>
      constructor
      · rintro ⟨r, hr⟩
        exact Except.noConfusion hr
      · rintro ⟨-, hall, -⟩
        have : images.forM checkImage = .ok () :=
          (forM_ok_iff checkImage images).mpr fun a ha =>
            (checkImage_ok_iff a).mpr (hall a ha)
        rw [him] at this
        exact Except.noConfusion this
    | ok u =>
      cases u
      cases htg : targets.forM checkTarget with
      | error e =>
        constructor
        · rintro ⟨r, hr⟩
          exact Except.noConfusion hr
        · rintro ⟨-, -, hall⟩
          have : targets.forM checkTarget = .ok () :=
            (forM_ok_iff checkTarget targets).mpr fun a ha =>
              (checkTarget_ok_iff a).mpr (hall a ha)
          rw [htg] at this
          exact Except.noConfusion this
      | ok u =>
        cases u
        constructor
        · intro _
          refine ⟨hlen, fun a ha => ?_, fun a ha => ?_⟩
          · exact (checkImage_ok_iff a).mp ((forM_ok_iff checkImage images).mp him a ha)
          · exact (checkTarget_ok_iff a).mp ((forM_ok_iff checkTarget targets).mp htg a ha)
        · intro _
          exact ⟨(images, targets), rfl⟩

end YoloSpec

/-- C6: for every batch, `_validate_batch` (run by every training, validation
and test step before any loss computation) accepts exactly the batches where
the image and target counts agree, every image and every target's boxes and
labels are tensors, every boxes tensor has shape `[N, 4]`, and every labels
tensor has rank 1 or 2 with the same length `N` as its boxes; any other batch
raises a descriptive error, and a valid batch is returned unchanged. -/
theorem C6_validate_batch (batch : List YoloSpec.Val × List YoloSpec.RawTarget) :
    ((∃ r, YoloSpec._validate_batch batch = .ok r) ↔ YoloSpec.ValidBatch batch) ∧
    (YoloSpec.ValidBatch batch →
      YoloSpec._validate_batch batch = .ok (batch.1, batch.2)) := by
  refine ⟨YoloSpec.validate_batch_ok_iff batch, fun hv => ?_⟩
  obtain ⟨hlen, him, htg⟩ := hv
  have h1 : batch.1.forM YoloSpec.checkImage = .ok () :=
    (YoloSpec.forM_ok_iff _ _).mpr fun a ha => (YoloSpec.checkImage_ok_iff a).mpr (him a ha)
  have h2 : batch.2.forM YoloSpec.checkTarget = .ok () :=
    (YoloSpec.forM_ok_iff _ _).mpr fun a ha => (YoloSpec.checkTarget_ok_iff a).mpr (htg a ha)
  simp only [YoloSpec._validate_batch]
  rw [if_neg (not_ne_iff.mpr hlen), h1, h2]

/-- Witness for C6: a batch of one image tensor and one target with boxes of
shape `[2, 4]` and labels of shape `[2]` passes validation. -/
theorem C6_validate_batch_witness :
    YoloSpec._validate_batch ([YoloSpec.Val.tensor [3, 256, 256]],
        [⟨YoloSpec.Val.tensor [2, 4], YoloSpec.Val.tensor [2]⟩]) =
      .ok ([YoloSpec.Val.tensor [3, 256, 256]],
        [⟨YoloSpec.Val.tensor [2, 4], YoloSpec.Val.tensor [2]⟩]) :=
  (C6_validate_batch _).2
    ⟨rfl,
     fun a ha => ⟨[3, 256, 256], List.mem_singleton.mp ha⟩,
     fun t ht => by
       rw [List.mem_singleton.mp ht]
       exact ⟨2, rfl, Or.inl rfl⟩⟩

/-- C3: for a fixed network state and input, the detections returned by
`YOLOV4Network.forward` with targets equal those returned without targets —
supplying targets only adds per-layer losses and hit counts — and the same
holds for the concatenated detections returned by `YOLO.forward`. -/
theorem C3_detections_target_independent {Img F T : Type}
    (net : YoloSpec.YOLOV4Network Img F T) (x : Img) (t : T) :
    (net.forward x (some t)).1 = (net.forward x none).1 ∧
    (YoloSpec.yoloForward (fun i tg => net.forward i tg) x (some t)).detections =
      (YoloSpec.yoloForward (fun i tg => net.forward i tg) x none).detections :=
  ⟨rfl, rfl⟩

namespace YoloSpec

/-- `torch.stack(losses).sum(0)` is the component-wise sum of the loss
vectors. -/
theorem stackSum_eq (losses : List Vec3) :
    stackSum losses =
      ((losses.map fun v => v.1).sum, (losses.map fun v => v.2.1).sum,
       (losses.map fun v => v.2.2).sum) := by
  induction losses with
  | nil => rfl
  | cons v rest ih =>
    have h : stackSum (v :: rest) =
        (v.1 + (stackSum rest).1, v.2.1 + (stackSum rest).2.1,
         v.2.2 + (stackSum rest).2.2) := rfl
    rw [h, ih]
    simp

/-- Mapping every element to `1` yields a constant list. -/
theorem map_one_replicate (hits : List ℕ) :
    (hits.map fun _ => (1 : ℚ)) = List.replicate hits.length 1 := by
  induction hits with
  | nil => rfl
  | cons a l ih => simp [ih, List.replicate_succ]

end YoloSpec

/-- C4: with targets, `YOLO.forward` returns the concatenated detections and a
three-component loss vector equal to the component-wise sum of the per-layer
loss vectors reported by the detection layers; without targets it returns the
concatenated detections alone — no loss vector, nothing logged. -/
theorem C4_loss_vector_componentwise_sum {Img T : Type}
    (network : Img → Option T → List (List ℚ) × List YoloSpec.Vec3 × List ℕ)
    (images : Img) (t : T) :
    (YoloSpec.yoloForward network images (some t)).losses =
      some ((((network images (some t)).2.1).map fun v => v.1).sum,
            (((network images (some t)).2.1).map fun v => v.2.1).sum,
            (((network images (some t)).2.1).map fun v => v.2.2).sum) ∧
    (YoloSpec.yoloForward network images (some t)).detections =
      ((network images (some t)).1).flatten ∧
    (YoloSpec.yoloForward network images none).detections =
      ((network images none).1).flatten ∧
    (YoloSpec.yoloForward network images none).losses = none ∧
    (YoloSpec.yoloForward network images none).logged_hit_rates = [] := by
  refine ⟨?_, rfl, rfl, rfl, rfl⟩
  simp only [YoloSpec.yoloForward]
  rw [YoloSpec.stackSum_eq]

/-- Counterexample to C5 as stated: with per-layer hit counts `[0, 1]`, the
first detection layer has zero matched targets, yet the hit rate reported for
it by `YOLO.forward` is `0/1 = 0`, not `1.0` — the `1.0` convention applies
only when the total hit count over all layers is zero. -/
theorem C5_zero_hits_counterexample :
    (YoloSpec.yoloForward (fun (_ : Unit) (_ : Option Unit) =>
        (([] : List (List ℚ)), ([] : List YoloSpec.Vec3), ([0, 1] : List ℕ))) ()
        (some ())).logged_hit_rates.getD 0 1 = 0 ∧ (0 : ℚ) ≠ 1 := by
  constructor
  · norm_num [YoloSpec.yoloForward, YoloSpec.hitRates, List.getD]
  · norm_num

/-- C5 (amended): for every forward pass of `YOLO` with targets, when the total
hit count over all detection layers is zero the hit rate reported for every
layer is `1.0` by convention rather than obtained by a division by zero; when
the total is positive, each layer's reported hit rate equals that layer's hit
count divided by the total hit count. -/
theorem C5_hit_rate_convention {Img T : Type}
    (network : Img → Option T → List (List ℚ) × List YoloSpec.Vec3 × List ℕ)
    (images : Img) (t : T) :
    ((network images (some t)).2.2.sum = 0 →
      (YoloSpec.yoloForward network images (some t)).logged_hit_rates =
        List.replicate (network images (some t)).2.2.length 1) ∧
    (0 < (network images (some t)).2.2.sum →
      (YoloSpec.yoloForward network images (some t)).logged_hit_rates =
        (network images (some t)).2.2.map fun (layer_hits : ℕ) =>
          (layer_hits : ℚ) / (((network images (some t)).2.2.sum : ℕ) : ℚ)) := by
  constructor
  · intro h0
    simp only [YoloSpec.yoloForward, YoloSpec.hitRates]
    rw [h0]
    refine (List.map_congr_left fun lh _ => ?_).trans (YoloSpec.map_one_replicate _)
    exact if_neg (Nat.lt_irrefl 0)
  · intro hpos
    simp only [YoloSpec.yoloForward, YoloSpec.hitRates]
    simp [hpos]

/-- Witness for C5 (amended): hit counts `[0, 1]` have positive total, so the
reported rates are `[0/1, 1/1]`. -/
theorem C5_hit_rate_convention_witness :
    (YoloSpec.yoloForward (fun (_ : Unit) (_ : Option Unit) =>
        (([] : List (List ℚ)), ([] : List YoloSpec.Vec3), ([0, 1] : List ℕ))) ()
        (some ())).logged_hit_rates =
      ([0, 1] : List ℕ).map fun (layer_hits : ℕ) =>
        (layer_hits : ℚ) / ((([0, 1] : List ℕ).sum : ℕ) : ℚ) :=
  (C5_hit_rate_convention (fun (_ : Unit) (_ : Option Unit) =>
      (([] : List (List ℚ)), ([] : List YoloSpec.Vec3), ([0, 1] : List ℕ))) () ()).2
    (by decide)
